import Mathlib

/-!
Verification of the streaming upload relay (src/index.js of
juppfy/youtube-upload-api) against its specification.

The embedding models the three core components:
* `attemptStreamUpload` — one download→upload relay attempt (src/index.js 200-270),
  driven by the observable network events of one attempt;
* `streamLoopGo` / `streamVideoToYouTube` — the bounded retry loop with
  exponential backoff (src/index.js 174-195);
* `runUploadStates` — the job state machine of `runUpload` (src/index.js 80-112),
  rendered as the list of successive job snapshots, one per field assignment;
* `getContentLength` — the HEAD content-length resolver (src/index.js 148-168);
* `evictionSweep` — the periodic job-store pruning (src/index.js 273-279);
* `genJobId` — job id generation (src/index.js 66).

I/O is abstracted into explicit event values (`SourceEvent`, `PutEvent`,
`HeadOutcome`): each value records what the network returned, and the
definitions below translate the source's handling of those events.
-/

namespace YTUpload

/-- Job lifecycle states, exactly the strings assigned to `job.status`
in src/index.js (`pending`, `downloading`, `uploading`, `completed`, `failed`). -/
inductive Status
  | pending
  | downloading
  | uploading
  | completed
  | failed
  deriving DecidableEq, Repr

/-- A JavaScript `Error` value as inspected by the retry classifier:
its `message`, the optional `statusCode` property attached by
`attemptStreamUpload` (absent = `undefined`), and the optional transport
`code` property (`ECONNRESET` / `ETIMEDOUT` on socket errors). -/
structure UploadError where
  message : String
  statusCode : Option Nat
  code : Option String
  deriving DecidableEq, Repr

/-- The value resolved by a successful attempt (src/index.js 235-239):
`{statusCode: 201, videoId, rawResponse}` where `rawResponse` is `undefined`
when the body was empty. -/
structure UploadResult where
  statusCode : Nat
  videoId : Option String
  rawResponse : Option String
  deriving DecidableEq, Repr

/-- The error object stored on the job by the `catch` of `runUpload`
(src/index.js 106-109): `{message: err.message, code: err.code}`. -/
structure JobError where
  message : String
  code : Option String
  deriving DecidableEq, Repr

/-- src/index.js 106-109: the job's terminal error keeps only `message`
and `code` of the thrown error. -/
def toJobError (e : UploadError) : JobError :=
  { message := e.message, code := e.code }

/-- The destination (PUT) response body of one attempt. `raw` is the
accumulated body string; `parsed` is the outcome of `JSON.parse(body)`
followed by `json.id || null` (src/index.js 230-233): `none` when
`JSON.parse` throws, `some i` when it succeeds, where `i` is the (truthy)
`id` field or `none`. -/
structure PutBody where
  raw : String
  parsed : Option (Option String)
  deriving DecidableEq, Repr

/-- What the source (download) connection produced: a response with a
status code, or a transport-level error (socket error / the 60s timeout
destroy, src/index.js 262-268). -/
inductive SourceEvent
  | response (statusCode : Nat)
  | netError (e : UploadError)
  deriving DecidableEq, Repr

/-- What the destination (PUT) connection produced: a final response
(status code and body), or a transport-level error (`putReq.on('error')`
or a pipeline failure, src/index.js 254-259). -/
inductive PutEvent
  | response (statusCode : Nat) (body : PutBody)
  | netError (e : UploadError)
  deriving DecidableEq, Repr

/-- Outcome of the HEAD probe (src/index.js 153-165): a response carrying
an optional `content-length` header (already read as a number; the
`parseInt` of the header string is abstracted), or a request error /
the 15s timeout destroy. -/
inductive HeadOutcome
  | response (len : Option Nat)
  | netError (e : UploadError)
  deriving DecidableEq, Repr

/-- The mutable job record (src/index.js 68-76), restricted to the fields
the verified claims speak about. `completedAt` is `none` until a terminal
assignment writes it. -/
structure Job where
  id : String
  status : Status
  createdAt : Nat
  completedAt : Option Nat
  result : Option UploadResult
  error : Option JobError
  deriving DecidableEq, Repr

/-- A job as created at acceptance time (src/index.js 68-76): status
`pending`, `result` and `error` both null. -/
def initialJob (id : String) (createdAt : Nat) : Job :=
  { id := id, status := Status.pending, createdAt := createdAt,
    completedAt := none, result := none, error := none }

def econnResetCode : String := "ECONNRESET"

def etimedOutCode : String := "ETIMEDOUT"

/-- src/index.js 184: an attempt failure is retried exactly when
`err.statusCode >= 500 || err.statusCode === 308 || err.code === 'ECONNRESET'
|| err.code === 'ETIMEDOUT'`; an absent `statusCode` (JS `undefined`)
makes the numeric comparisons false. -/
def isRetryable (e : UploadError) : Bool :=
  (match e.statusCode with
   | some s => decide (500 ≤ s) || decide (s = 308)
   | none => false)
  || decide (e.code = some econnResetCode)
  || decide (e.code = some etimedOutCode)

/-- src/index.js 175. -/
def maxRetries : Nat := 3

/-- src/index.js 188: `Math.min(1000 * Math.pow(2, attempt), 10000)`. -/
def backoffDelay (attempt : Nat) : Nat :=
  min (1000 * 2 ^ attempt) 10000

/-- src/index.js 158. -/
def sizeUnavailableMessage : String :=
  "Source URL does not provide Content-Length. Pass contentLength in the request body."

/-- src/index.js 148-168: resolve the HEAD outcome exactly as
`getContentLength` does — a present `content-length` header resolves with
its value, an absent header rejects with the size-unavailable error, and a
request error or timeout rejects with that transport error. -/
def getContentLength : HeadOutcome → Except UploadError Nat
  | HeadOutcome.response (some len) => Except.ok len
  | HeadOutcome.response none =>
      Except.error { message := sizeUnavailableMessage, statusCode := none, code := none }
  | HeadOutcome.netError e => Except.error e

/-- src/index.js 200-270: one relay attempt, as a function of the two
network events it observes. A source status `>= 400` rejects with a plain
`Error` (no `statusCode`, no `code` property). Otherwise the destination
response decides: `201` resolves (body parsing is best-effort), `308`
rejects with `statusCode = 308`, anything else rejects with that status
code attached. Transport errors on either side propagate unchanged. -/
def attemptStreamUpload (src : SourceEvent) (put : PutEvent) :
    Except UploadError UploadResult :=
  match src with
  | SourceEvent.netError e => Except.error e
  | SourceEvent.response s =>
    if 400 ≤ s then
      Except.error { message := "Failed to download video: HTTP " ++ Nat.repr s,
                     statusCode := none, code := none }
    else
      match put with
      | PutEvent.netError e => Except.error e
      | PutEvent.response ps body =>
        if ps = 201 then
          Except.ok { statusCode := 201,
                      videoId := match body.parsed with
                                 | some i => i
                                 | none => none,
                      rawResponse := if 0 < body.raw.length then some body.raw else none }
        else if ps = 308 then
          Except.error { message := "Upload incomplete (308), will retry",
                         statusCode := some 308, code := none }
        else
          Except.error { message := "YouTube upload failed: HTTP " ++ Nat.repr ps
                                      ++ " - " ++ body.raw,
                         statusCode := some ps, code := none }

/-- Observable outcome of the retry loop: the settled value, how many
attempts were performed, and the list of backoff delays awaited (in
order, one entry per retried attempt). -/
structure LoopTrace where
  result : Except UploadError UploadResult
  attemptsMade : Nat
  delays : List Nat
  deriving Repr

/-- The `for` loop of `streamVideoToYouTube` (src/index.js 178-192).
`env attempt` is the outcome of attempt number `attempt` (the rejection or
resolution of `attemptStreamUpload` on that iteration). `fuel` counts the
iterations left, so `fuel = 0` inside the recursion corresponds to the
unreachable `throw lastError` after the loop (every exit happens inside
the loop body because the `attempt === maxRetries` iteration rethrows). -/
def streamLoopGo (env : Nat → Except UploadError UploadResult) :
    Nat → Nat → LoopTrace
  | _, 0 =>
      { result := Except.error { message := "unreachable", statusCode := none, code := none },
        attemptsMade := 0, delays := [] }
  | attempt, fuel + 1 =>
    match env attempt with
    | Except.ok r => { result := Except.ok r, attemptsMade := 1, delays := [] }
    | Except.error e =>
      if isRetryable e = false ∨ fuel = 0 then
        { result := Except.error e, attemptsMade := 1, delays := [] }
      else
        let rest := streamLoopGo env (attempt + 1) fuel
        { result := rest.result, attemptsMade := rest.attemptsMade + 1,
          delays := backoffDelay attempt :: rest.delays }

/-- src/index.js 174-195: the retry loop starts at attempt 1 with
`maxRetries` iterations available. -/
def streamVideoToYouTube (env : Nat → Except UploadError UploadResult) : LoopTrace :=
  streamLoopGo env 1 maxRetries

/-- The environment one execution of `runUpload` observes: the request's
optional explicit `contentLength`, the HEAD probe outcome (consulted only
when `contentLength` is absent), the outcome of each transfer attempt,
and the timestamp written to `completedAt`. -/
structure RunEnv where
  contentLength : Option Nat
  head : HeadOutcome
  attempts : Nat → Except UploadError UploadResult
  finishTime : Nat

/-- src/index.js 84-88: use the provided `contentLength` if non-null,
otherwise resolve it via the HEAD probe. -/
def resolveContentLength (env : RunEnv) : Except UploadError Nat :=
  match env.contentLength with
  | some n => Except.ok n
  | none => getContentLength env.head

/-- The transfer stage began: content-length resolution returned, so
`runUpload` set the status to `uploading` and invoked the relay
(src/index.js 90-92). -/
def transferBegan (env : RunEnv) : Prop :=
  ∃ n, resolveContentLength env = Except.ok n

/-- src/index.js 80-112: the successive snapshots of the job mutated by
one execution of `runUpload`, one snapshot per field assignment (initial
job, `status = 'downloading'`, then on resolution failure
`status = 'failed'`, `completedAt`, `error`; on resolution success
`status = 'uploading'` followed by the terminal assignments of the
`try`/`catch`). -/
def runUploadStates (j : Job) (env : RunEnv) : List Job :=
  let s1 := { j with status := Status.downloading }
  match resolveContentLength env with
  | Except.error e =>
    let s2 := { s1 with status := Status.failed }
    let s3 := { s2 with completedAt := some env.finishTime }
    let s4 := { s3 with error := some (toJobError e) }
    [j, s1, s2, s3, s4]
  | Except.ok _ =>
    let s2 := { s1 with status := Status.uploading }
    match (streamVideoToYouTube env.attempts).result with
    | Except.ok r =>
      let s3 := { s2 with status := Status.completed }
      let s4 := { s3 with completedAt := some env.finishTime }
      let s5 := { s4 with result := some r }
      [j, s1, s2, s3, s4, s5]
    | Except.error e =>
      let s3 := { s2 with status := Status.failed }
      let s4 := { s3 with completedAt := some env.finishTime }
      let s5 := { s4 with error := some (toJobError e) }
      [j, s1, s2, s3, s4, s5]

/-- Number of relay attempts one execution of `runUpload` performs: zero
when content-length resolution throws (the retry loop lives inside
`streamVideoToYouTube`, which is only reached afterwards, src/index.js
84-98). -/
def runUploadAttempts (env : RunEnv) : Nat :=
  match resolveContentLength env with
  | Except.error _ => 0
  | Except.ok _ => (streamVideoToYouTube env.attempts).attemptsMade

/-- Position of a status along the lifecycle chain
`pending → downloading → uploading → {completed | failed}`. -/
def statusRank : Status → Nat
  | Status.pending => 0
  | Status.downloading => 1
  | Status.uploading => 2
  | Status.completed => 3
  | Status.failed => 3

/-- Collapse consecutive duplicates: the status sequence an observer can
distinguish (adjacent snapshots with the same status are one observed
state). -/
def squeeze : List Status → List Status
  | [] => []
  | [a] => [a]
  | a :: b :: rest =>
      if a = b then squeeze (b :: rest) else a :: squeeze (b :: rest)

/-- The observable status sequence of a snapshot list. -/
def observedStatuses (states : List Job) : List Status :=
  squeeze (states.map Job.status)

/-- The comparator of the eviction sweep (src/index.js 275):
`new Date(a[1].createdAt) - new Date(b[1].createdAt)` sorts ascending by
creation time. -/
def jobLE (a b : Job) : Prop :=
  a.createdAt ≤ b.createdAt

instance : DecidableRel jobLE :=
  fun a b => inferInstanceAs (Decidable (a.createdAt ≤ b.createdAt))

instance : IsTotal Job jobLE where
  total a b := Nat.le_total a.createdAt b.createdAt

instance : IsTrans Job jobLE where
  trans _ _ _ hab hbc := Nat.le_trans hab hbc

/-- src/index.js 273-279: when more than 100 jobs exist, sort the entries
ascending by `createdAt` (JS `Array.prototype.sort` is stable, so any
stable sort — here insertion sort — computes the same list) and delete the
first `size - 100` of the sorted order. The pair is
(`toDelete`, the jobs remaining in the store); deleting the sorted
prefix from the map leaves exactly the sorted suffix. -/
def evictionSweep (store : List Job) : List Job × List Job :=
  if 100 < store.length then
    let sorted := List.insertionSort jobLE store
    (sorted.take (store.length - 100), sorted.drop (store.length - 100))
  else
    ([], store)

/-- src/index.js 66: ``job_${Date.now()}_${Math.random().toString(36).slice(2, 9)}``.
`nowMs` is the millisecond clock reading (rendered in decimal) and `rand`
the seven-or-fewer-character random suffix. -/
def genJobId (nowMs : Nat) (rand : String) : String :=
  "job_" ++ Nat.repr nowMs ++ "_" ++ rand

/-- A process history of job creations: for each accepted request, the
clock value and the random suffix drawn at src/index.js 66, yielding the
created job objects in order. -/
def createdJobs (inputs : List (Nat × String)) : List Job :=
  inputs.map (fun p => initialJob (genJobId p.1 p.2) p.1)

/-! Decimal-representation machinery used to analyse `genJobId`:
`digitsRec n` is the list of decimal digit characters of `n`, and is shown
below to agree with `Nat.repr`. -/

/-- The decimal digit characters of `n`, most significant first. -/
def digitsRec (n : Nat) : List Char :=
  if _h : n < 10 then [Nat.digitChar n]
  else digitsRec (n / 10) ++ [Nat.digitChar (n % 10)]
decreasing_by exact Nat.div_lt_self (by omega) (by omega)

/-- Numeric value of a decimal digit character. -/
def charVal (c : Char) : Nat :=
  c.toNat - 48

/-- Read a decimal digit string back as a number. -/
def decodeDigits (l : List Char) : Nat :=
  l.foldl (fun a c => 10 * a + charVal c) 0

/-! Concrete fixtures used by the witness theorems. -/

/-- A destination rejection (HTTP 403): non-retryable. -/
def rejectedErr : UploadError :=
  { message := "YouTube upload failed: HTTP 403 - denied", statusCode := some 403, code := none }

/-- A destination server error (HTTP 503): retryable. -/
def serverErr : UploadError :=
  { message := "YouTube upload failed: HTTP 503 - unavailable", statusCode := some 503, code := none }

/-- A successful attempt outcome. -/
def okResult : UploadResult :=
  { statusCode := 201, videoId := some "vid123", rawResponse := some "created" }

/-- Attempt environment: every attempt fails with the non-retryable error. -/
def envReject : Nat → Except UploadError UploadResult :=
  fun _ => Except.error rejectedErr

/-- Attempt environment: retryable failures on attempts 1 and 2, success on 3. -/
def envThird : Nat → Except UploadError UploadResult :=
  fun a => if a < 3 then Except.error serverErr else Except.ok okResult

/-- Run environment with an explicit content length and an eventually
successful transfer. -/
def envOkRun : RunEnv :=
  { contentLength := some 1000, head := HeadOutcome.response none,
    attempts := envThird, finishTime := 42 }

/-- Run environment with no explicit content length and a HEAD probe that
reports no `Content-Length` header. -/
def envNoLen : RunEnv :=
  { contentLength := none, head := HeadOutcome.response none,
    attempts := fun _ => Except.ok okResult, finishTime := 42 }

/-- Run environment whose every transfer attempt fails non-retryably. -/
def envRejectRun : RunEnv :=
  { contentLength := some 1000, head := HeadOutcome.response none,
    attempts := envReject, finishTime := 42 }

/-- Id used by the witness job. -/
def jobExId : String := "job_w"

/-- A freshly created job used by witnesses. -/
def jobEx : Job :=
  initialJob jobExId 5

/-- A response body that fails `JSON.parse`. -/
def unparsedBody : PutBody :=
  { raw := "<html>created</html>", parsed := none }

/-- A response body that parses and carries an `id` field. -/
def parsedBody : PutBody :=
  { raw := "json-body", parsed := some (some "vid123") }

/-- Id shared by the witness store's jobs. -/
def storeJobId : String := "j"

/-- A store of 101 jobs with ascending creation times. -/
def storeEx : List Job :=
  (List.range 101).map (fun i => initialJob storeJobId i)

/-- A history whose two creations drew the same millisecond and suffix. -/
def histColl : List (Nat × String) :=
  [(1700, "a1b2c3d"), (1700, "a1b2c3d")]

/-- A sample millisecond timestamp. -/
def tsA : Nat := 1700

/-- Another sample millisecond timestamp. -/
def tsB : Nat := 1701

/-- A sample random suffix. -/
def sufA : String := "a1b2c3d"

/-! ### Properties of the retry loop -/

theorem streamLoopGo_made_le (env : Nat → Except UploadError UploadResult) :
    ∀ (fuel a : Nat), (streamLoopGo env a fuel).attemptsMade ≤ fuel := by
  intro fuel
  induction fuel with
  | zero => intro a; simp [streamLoopGo]
  | succ f ih =>
    intro a
    simp only [streamLoopGo]
    cases henv : env a with
    | ok r => simp
    | error e =>
      simp only
      split
      · simp
      · simp only
        have := ih (a + 1)
        omega

theorem streamLoopGo_made_pos (env : Nat → Except UploadError UploadResult)
    (fuel a : Nat) (hf : 0 < fuel) : 0 < (streamLoopGo env a fuel).attemptsMade := by
  obtain ⟨f, rfl⟩ : ∃ f, fuel = f + 1 := ⟨fuel - 1, by omega⟩
  simp only [streamLoopGo]
  cases henv : env a with
  | ok r => simp
  | error e =>
    simp only
    split
    · simp
    · simp only
      omega

theorem streamLoopGo_stop (env : Nat → Except UploadError UploadResult)
    (fuel a : Nat) (e : UploadError) (hf : 0 < fuel)
    (henv : env a = Except.error e) (hr : isRetryable e = false) :
    streamLoopGo env a fuel =
      { result := Except.error e, attemptsMade := 1, delays := [] } := by
  obtain ⟨f, rfl⟩ : ∃ f, fuel = f + 1 := ⟨fuel - 1, by omega⟩
  simp only [streamLoopGo, henv]
  rw [if_pos (Or.inl hr)]

theorem streamLoopGo_retried (env : Nat → Except UploadError UploadResult) :
    ∀ (fuel a i : Nat), i < (streamLoopGo env a fuel).attemptsMade - 1 →
      ∃ e, env (a + i) = Except.error e ∧ isRetryable e = true := by
  intro fuel
  induction fuel with
  | zero => intro a i h; simp [streamLoopGo] at h
  | succ f ih =>
    intro a i h
    simp only [streamLoopGo] at h
    cases henv : env a with
    | ok r => rw [henv] at h; simp at h
    | error e =>
      rw [henv] at h
      simp only at h
      by_cases hcond : isRetryable e = false ∨ f = 0
      · rw [if_pos hcond] at h; simp at h
      · rw [if_neg hcond] at h
        simp only at h
        cases i with
        | zero =>
          refine ⟨e, by simpa using henv, ?_⟩
          cases hr : isRetryable e
          · exact absurd (Or.inl hr) hcond
          · rfl
        | succ i' =>
          have hi' : i' < (streamLoopGo env (a + 1) f).attemptsMade - 1 := by omega
          obtain ⟨e', he', hr'⟩ := ih (a + 1) i' hi'
          exact ⟨e', by rw [show a + (i' + 1) = a + 1 + i' by omega]; exact he', hr'⟩

theorem streamLoopGo_last_error (env : Nat → Except UploadError UploadResult) :
    ∀ (fuel a : Nat) (e : UploadError), 0 < fuel →
      (streamLoopGo env a fuel).result = Except.error e →
      env (a + (streamLoopGo env a fuel).attemptsMade - 1) = Except.error e := by
  intro fuel
  induction fuel with
  | zero => intro a e h; omega
  | succ f ih =>
    intro a e _ hres
    cases henv : env a with
    | ok r =>
      simp only [streamLoopGo, henv] at hres
      simp at hres
    | error e' =>
      simp only [streamLoopGo, henv] at hres ⊢
      by_cases hcond : isRetryable e' = false ∨ f = 0
      · rw [if_pos hcond] at hres ⊢
        simp only [Except.error.injEq] at hres
        subst hres
        simpa using henv
      · rw [if_neg hcond] at hres ⊢
        simp only at hres ⊢
        have hf : 0 < f := by omega
        have hpos := streamLoopGo_made_pos env f (a + 1) hf
        have := ih (a + 1) e hf hres
        rw [show a + ((streamLoopGo env (a + 1) f).attemptsMade + 1) - 1
              = a + 1 + (streamLoopGo env (a + 1) f).attemptsMade - 1 by omega]
        exact this

theorem streamLoopGo_delays (env : Nat → Except UploadError UploadResult) :
    ∀ (fuel a : Nat),
      (streamLoopGo env a fuel).delays =
        (List.range ((streamLoopGo env a fuel).attemptsMade - 1)).map
          (fun i => backoffDelay (a + i)) := by
  intro fuel
  induction fuel with
  | zero => intro a; simp [streamLoopGo]
  | succ f ih =>
    intro a
    simp only [streamLoopGo]
    cases henv : env a with
    | ok r => simp
    | error e =>
      simp only
      split
      · simp
      · simp only
        rename_i hcond
        have hf : 0 < f := by
          rcases Nat.eq_zero_or_pos f with h0 | h0
          · exact absurd (Or.inr h0) hcond
          · exact h0
        have hpos := streamLoopGo_made_pos env f (a + 1) hf
        obtain ⟨m, hm⟩ : ∃ m, (streamLoopGo env (a + 1) f).attemptsMade = m + 1 :=
          ⟨(streamLoopGo env (a + 1) f).attemptsMade - 1, by omega⟩
        rw [ih (a + 1), hm]
        simp only [Nat.add_sub_cancel, List.range_succ_eq_map, List.map_cons, List.map_map]
        refine congrArg₂ List.cons (by simp) ?_
        refine List.map_congr_left ?_
        intro i _
        simp only [Function.comp]
        rw [show a + (i + 1) = a + 1 + i by omega]

/-! ### Decimal representation: `Nat.repr` agrees with `digitsRec` and is injective -/

theorem toDigitsCore_append (b : Nat) :
    ∀ (f n : Nat) (acc : List Char),
      Nat.toDigitsCore b f n acc = Nat.toDigitsCore b f n [] ++ acc := by
  intro f
  induction f with
  | zero => intro n acc; simp [Nat.toDigitsCore]
  | succ f ih =>
    intro n acc
    simp only [Nat.toDigitsCore]
    by_cases h : n / b = 0
    · rw [if_pos h, if_pos h]; simp
    · rw [if_neg h, if_neg h]
      rw [ih (n / b) (Nat.digitChar (n % b) :: acc), ih (n / b) [Nat.digitChar (n % b)]]
      simp

theorem toDigitsCore_eq_digitsRec :
    ∀ (f n : Nat), n < f → Nat.toDigitsCore 10 f n [] = digitsRec n := by
  intro f
  induction f with
  | zero => intro n h; omega
  | succ f ih =>
    intro n h
    simp only [Nat.toDigitsCore]
    by_cases h0 : n / 10 = 0
    · have hn : n < 10 := by
        by_contra hge
        have : 1 ≤ n / 10 := Nat.one_le_div_iff (by omega) |>.mpr (by omega)
        omega
      rw [if_pos h0, digitsRec, dif_pos hn, Nat.mod_eq_of_lt hn]
    · have hge : 10 ≤ n := by
        by_contra hlt
        exact h0 (Nat.div_eq_of_lt (by omega))
      have hdiv : n / 10 < n := Nat.div_lt_self (by omega) (by omega)
      rw [if_neg h0, toDigitsCore_append 10 f (n / 10) [Nat.digitChar (n % 10)],
        ih (n / 10) (by omega)]
      conv_rhs => rw [digitsRec]
      rw [dif_neg (by omega : ¬n < 10)]

theorem charVal_digitChar {d : Nat} (h : d < 10) :
    charVal (Nat.digitChar d) = d := by
  interval_cases d <;> rfl

theorem digitChar_ne_underscore {d : Nat} (h : d < 10) :
    Nat.digitChar d ≠ '_' := by
  interval_cases d <;> decide

theorem decodeDigits_append (l : List Char) (c : Char) :
    decodeDigits (l ++ [c]) = 10 * decodeDigits l + charVal c := by
  simp [decodeDigits, List.foldl_append]

theorem decodeDigits_digitsRec (n : Nat) : decodeDigits (digitsRec n) = n := by
  induction n using Nat.strong_induction_on with
  | _ n ih =>
    by_cases h : n < 10
    · rw [digitsRec, dif_pos h]
      simp [decodeDigits, charVal_digitChar h]
    · rw [digitsRec, dif_neg h, decodeDigits_append,
        ih (n / 10) (Nat.div_lt_self (by omega) (by omega)),
        charVal_digitChar (Nat.mod_lt n (by omega))]
      omega

theorem digitsRec_inj {a b : Nat} (h : digitsRec a = digitsRec b) : a = b := by
  have ha := decodeDigits_digitsRec a
  rw [h, decodeDigits_digitsRec] at ha
  exact ha.symm

theorem repr_data (n : Nat) : (Nat.repr n).data = digitsRec n := by
  unfold Nat.repr Nat.toDigits
  rw [toDigitsCore_eq_digitsRec (n + 1) n (Nat.lt_succ_self n)]
  rfl

theorem underscore_not_mem_digitsRec (n : Nat) : '_' ∉ digitsRec n := by
  induction n using Nat.strong_induction_on with
  | _ n ih =>
    by_cases h : n < 10
    · rw [digitsRec, dif_pos h]
      intro hm
      exact digitChar_ne_underscore h (List.mem_singleton.mp hm).symm
    · rw [digitsRec, dif_neg h]
      intro hm
      rcases List.mem_append.mp hm with hm | hm
      · exact ih (n / 10) (Nat.div_lt_self (by omega) (by omega)) hm
      · exact digitChar_ne_underscore (Nat.mod_lt n (by omega)) (List.mem_singleton.mp hm).symm

theorem underscore_not_mem_repr (t : Nat) : '_' ∉ (Nat.repr t).data := by
  rw [repr_data]
  exact underscore_not_mem_digitsRec t

theorem append_underscore_inj :
    ∀ (l1 l2 r1 r2 : List Char), '_' ∉ l1 → '_' ∉ l2 →
      l1 ++ '_' :: r1 = l2 ++ '_' :: r2 → l1 = l2 ∧ r1 = r2 := by
  intro l1
  induction l1 with
  | nil =>
    intro l2 r1 r2 _ h2 h
    cases l2 with
    | nil => simpa using h
    | cons b t =>
      simp only [List.nil_append, List.cons_append, List.cons.injEq] at h
      exact absurd (h.1 ▸ List.mem_cons_self b t) h2
  | cons a l1 ih =>
    intro l2 r1 r2 h1 h2 h
    cases l2 with
    | nil =>
      simp only [List.nil_append, List.cons_append, List.cons.injEq] at h
      exact absurd (h.1 ▸ List.mem_cons_self a l1) h1
    | cons b t =>
      simp only [List.cons_append, List.cons.injEq] at h
      obtain ⟨rfl, htl⟩ := h
      have h1' : '_' ∉ l1 := fun hm => h1 (List.mem_cons_of_mem _ hm)
      have h2' : '_' ∉ t := fun hm => h2 (List.mem_cons_of_mem _ hm)
      obtain ⟨rfl, rfl⟩ := ih t r1 r2 h1' h2' htl
      exact ⟨rfl, rfl⟩

theorem genJobId_inj {t1 t2 : Nat} {r1 r2 : String}
    (h : genJobId t1 r1 = genJobId t2 r2) : t1 = t2 ∧ r1 = r2 := by
  have hd := congrArg String.data h
  simp only [genJobId, String.data_append] at hd
  simp only [List.append_assoc, List.singleton_append, List.cons_append, List.nil_append,
    List.cons.injEq, true_and] at hd
  obtain ⟨hrep, hsuf⟩ :=
    append_underscore_inj _ _ _ _ (underscore_not_mem_repr t1) (underscore_not_mem_repr t2) hd
  refine ⟨?_, ?_⟩
  · apply digitsRec_inj
    rw [← repr_data, ← repr_data, hrep]
  · cases r1 with
    | mk d1 =>
      cases r2 with
      | mk d2 => exact congrArg String.mk (by simpa using hsuf)

/-! ### Top-level retry-loop facts -/

theorem stream_made_le (env : Nat → Except UploadError UploadResult) :
    (streamVideoToYouTube env).attemptsMade ≤ 3 :=
  streamLoopGo_made_le env 3 1

theorem stream_made_pos (env : Nat → Except UploadError UploadResult) :
    1 ≤ (streamVideoToYouTube env).attemptsMade :=
  streamLoopGo_made_pos env 3 1 (by norm_num)

theorem stream_stop (env : Nat → Except UploadError UploadResult) (e : UploadError)
    (henv : env 1 = Except.error e) (hr : isRetryable e = false) :
    streamVideoToYouTube env =
      { result := Except.error e, attemptsMade := 1, delays := [] } :=
  streamLoopGo_stop env 3 1 e (by norm_num) henv hr

theorem stream_retried (env : Nat → Except UploadError UploadResult) (i : Nat)
    (h1 : 1 ≤ i) (h2 : i < (streamVideoToYouTube env).attemptsMade) :
    ∃ e, env i = Except.error e ∧ isRetryable e = true := by
  simp only [streamVideoToYouTube, maxRetries] at h2
  obtain ⟨e, he, hr⟩ := streamLoopGo_retried env 3 1 (i - 1) (by omega)
  refine ⟨e, ?_, hr⟩
  rw [show 1 + (i - 1) = i from by omega] at he
  exact he

theorem stream_last_error (env : Nat → Except UploadError UploadResult) (e : UploadError)
    (h : (streamVideoToYouTube env).result = Except.error e) :
    env ((streamVideoToYouTube env).attemptsMade) = Except.error e := by
  have hpos := stream_made_pos env
  have h2 := streamLoopGo_last_error env 3 1 e (by norm_num)
    (by simpa [streamVideoToYouTube, maxRetries] using h)
  simp only [streamVideoToYouTube, maxRetries] at hpos ⊢
  rw [show 1 + (streamLoopGo env 1 3).attemptsMade - 1
        = (streamLoopGo env 1 3).attemptsMade from by omega] at h2
  exact h2

theorem stream_delays (env : Nat → Except UploadError UploadResult) :
    (streamVideoToYouTube env).delays =
      (List.range ((streamVideoToYouTube env).attemptsMade - 1)).map
        (fun i => backoffDelay (1 + i)) :=
  streamLoopGo_delays env 3 1

/-! ### Claim theorems -/

/-- C1: the orchestrator performs at most 3 transfer attempts per job and
at least one; an attempt is followed by another only when its failure is
classified retryable; a non-retryable failure on attempt 1 terminates the
sequence immediately with that error and no delay; and when the loop
settles on an error, that error is the last attempt's error and is the
one recorded as the job's terminal `error`. -/
theorem retry_policy_spec (env : RunEnv) :
    (1 ≤ (streamVideoToYouTube env.attempts).attemptsMade
      ∧ (streamVideoToYouTube env.attempts).attemptsMade ≤ 3)
    ∧ (∀ i, 1 ≤ i → i < (streamVideoToYouTube env.attempts).attemptsMade →
        ∃ e, env.attempts i = Except.error e ∧ isRetryable e = true)
    ∧ (∀ e, env.attempts 1 = Except.error e → isRetryable e = false →
        streamVideoToYouTube env.attempts =
          { result := Except.error e, attemptsMade := 1, delays := [] })
    ∧ (∀ e, (streamVideoToYouTube env.attempts).result = Except.error e →
        env.attempts ((streamVideoToYouTube env.attempts).attemptsMade) = Except.error e
        ∧ ∀ (j : Job) (n : Nat), resolveContentLength env = Except.ok n →
            (runUploadStates j env).getLast? =
              some { j with
                      status := Status.failed,
                      completedAt := some env.finishTime,
                      error := some (toJobError e) }) := by
  refine ⟨⟨stream_made_pos env.attempts, stream_made_le env.attempts⟩,
    fun i h1 h2 => stream_retried env.attempts i h1 h2,
    fun e he hr => stream_stop env.attempts e he hr,
    fun e hres => ⟨stream_last_error env.attempts e hres, ?_⟩⟩
  intro j n hok
  simp [runUploadStates, hok, hres]

/-- C7: the backoff delay recorded after the failed attempt numbered
`i + 1` is exactly `min (1000 * 2 ^ (i + 1)) 10000` milliseconds; delays
occur only between a retried attempt and the next one (their count is the
attempt count minus one), so no delay precedes the first attempt. -/
theorem backoff_schedule (env : Nat → Except UploadError UploadResult) :
    (streamVideoToYouTube env).delays =
      (List.range ((streamVideoToYouTube env).attemptsMade - 1)).map
        (fun i => min (1000 * 2 ^ (i + 1)) 10000)
    ∧ (streamVideoToYouTube env).delays.length =
        (streamVideoToYouTube env).attemptsMade - 1 := by
  constructor
  · rw [stream_delays]
    refine List.map_congr_left ?_
    intro i _
    simp [backoffDelay, Nat.add_comm]
  · rw [stream_delays]
    simp

/-- C9: a relay attempt resolves successfully only on destination status
exactly 201; any other success-range status (200-299) rejects with an
error carrying that status code, which the retry classification deems
non-retryable, so the loop stops after that single attempt with that
error. -/
theorem success_requires_201 (s ps : Nat) (b : PutBody)
    (hs : s < 400) (hlo : 200 ≤ ps) (hhi : ps < 300) (hne : ps ≠ 201) :
    ∃ e, attemptStreamUpload (SourceEvent.response s) (PutEvent.response ps b) = Except.error e
      ∧ e.statusCode = some ps
      ∧ isRetryable e = false
      ∧ ∀ env, env 1 = Except.error e →
          streamVideoToYouTube env =
            { result := Except.error e, attemptsMade := 1, delays := [] } := by
  have hre : isRetryable { message := "YouTube upload failed: HTTP " ++ Nat.repr ps
                                        ++ " - " ++ b.raw,
                           statusCode := some ps, code := none } = false := by
    simp only [isRetryable]
    simp [econnResetCode, etimedOutCode, decide_eq_false_iff_not]
    omega
  refine ⟨_, ?_, rfl, hre, fun env he => stream_stop env _ he hre⟩
  simp only [attemptStreamUpload]
  rw [if_neg (by omega : ¬400 ≤ s), if_neg hne, if_neg (by omega : ¬ps = 308)]

/-- C10: a source (download-side) response with status >= 400 rejects the
attempt with an error that has neither a `statusCode` nor a transport
`code` property, so the retry classification is false and the loop stops
after that single attempt — download-side HTTP errors are never retried,
whatever the status (5xx included). -/
theorem download_error_never_retried (s : Nat) (put : PutEvent) (hs : 400 ≤ s) :
    ∃ e, attemptStreamUpload (SourceEvent.response s) put = Except.error e
      ∧ e.statusCode = none
      ∧ e.code = none
      ∧ isRetryable e = false
      ∧ ∀ env, env 1 = Except.error e →
          streamVideoToYouTube env =
            { result := Except.error e, attemptsMade := 1, delays := [] } := by
  refine ⟨{ message := "Failed to download video: HTTP " ++ Nat.repr s,
            statusCode := none, code := none }, ?_, rfl, rfl, rfl,
    fun env he => stream_stop env _ he rfl⟩
  simp only [attemptStreamUpload]
  rw [if_pos hs]

/-- C5: on destination status 201 a single attempt resolves with
`{statusCode := 201, videoId, rawResponse}` where `videoId` comes from the
parsed body; when the body does not parse the attempt still succeeds,
with `videoId` null rather than failing. -/
theorem success_201_parses (s : Nat) (b : PutBody) (hs : s < 400) :
    attemptStreamUpload (SourceEvent.response s) (PutEvent.response 201 b) =
      Except.ok { statusCode := 201,
                  videoId := b.parsed.getD none,
                  rawResponse := if 0 < b.raw.length then some b.raw else none }
    ∧ (b.parsed = none →
        ∃ r, attemptStreamUpload (SourceEvent.response s) (PutEvent.response 201 b)
              = Except.ok r
          ∧ r.videoId = none) := by
  obtain ⟨raw, parsed⟩ := b
  have h4 : ¬400 ≤ s := by omega
  constructor
  · cases parsed <;> simp [attemptStreamUpload, h4]
  · intro hp
    simp only at hp
    subst hp
    refine ⟨{ statusCode := 201, videoId := none,
              rawResponse := if 0 < raw.length then some raw else none }, ?_, rfl⟩
    simp [attemptStreamUpload, h4]

/-- C2: for an accepted job (created `pending`), the observable status
sequence of one `runUpload` execution advances strictly along the chain
`pending, downloading, uploading, completed|failed` (it is a sublist of
one of the two full chains and strictly increases in chain position, so
it never regresses and never leaves a terminal state), it starts at
`pending`, a terminal status can only be the last observed one, and once
the transfer stage has begun the sequence passes through `uploading`. -/
theorem status_chain (j : Job) (env : RunEnv) (hj : j.status = Status.pending) :
    ((observedStatuses (runUploadStates j env)).Sublist
        [Status.pending, Status.downloading, Status.uploading, Status.completed]
      ∨ (observedStatuses (runUploadStates j env)).Sublist
        [Status.pending, Status.downloading, Status.uploading, Status.failed])
    ∧ List.Chain' (fun a b => statusRank a < statusRank b)
        (observedStatuses (runUploadStates j env))
    ∧ (observedStatuses (runUploadStates j env)).head? = some Status.pending
    ∧ (∀ x ∈ observedStatuses (runUploadStates j env),
        x = Status.completed ∨ x = Status.failed →
          (observedStatuses (runUploadStates j env)).getLast? = some x)
    ∧ (transferBegan env →
        Status.uploading ∈ observedStatuses (runUploadStates j env)) := by
  cases hres : resolveContentLength env with
  | error e =>
    have hobs : observedStatuses (runUploadStates j env)
        = [Status.pending, Status.downloading, Status.failed] := by
      simp [observedStatuses, runUploadStates, hres, hj, squeeze]
    rw [hobs]
    refine ⟨Or.inr (by decide), by norm_num [List.chain'_cons, statusRank], by decide,
      by decide, ?_⟩
    rintro ⟨n, hn⟩
    rw [hres] at hn
    exact absurd hn (by simp)
  | ok n =>
    cases hloop : (streamVideoToYouTube env.attempts).result with
    | ok r =>
      have hobs : observedStatuses (runUploadStates j env)
          = [Status.pending, Status.downloading, Status.uploading, Status.completed] := by
        simp [observedStatuses, runUploadStates, hres, hloop, hj, squeeze]
      rw [hobs]
      exact ⟨Or.inl (by decide), by norm_num [List.chain'_cons, statusRank], by decide,
        by decide, fun _ => by decide⟩
    | error e =>
      have hobs : observedStatuses (runUploadStates j env)
          = [Status.pending, Status.downloading, Status.uploading, Status.failed] := by
        simp [observedStatuses, runUploadStates, hres, hloop, hj, squeeze]
      rw [hobs]
      exact ⟨Or.inr (by decide), by norm_num [List.chain'_cons, statusRank], by decide,
        by decide, fun _ => by decide⟩

/-- C3: at every snapshot of a job's lifetime, `result` and `error` are
never both non-null; both are null whenever the status is not terminal;
`result` can be non-null only at status `completed` and `error` only at
status `failed`. -/
theorem result_error_invariant (j : Job) (env : RunEnv)
    (hr : j.result = none) (he : j.error = none) :
    ∀ s ∈ runUploadStates j env,
      (s.result = none ∨ s.error = none)
      ∧ (s.status ≠ Status.completed ∧ s.status ≠ Status.failed →
          s.result = none ∧ s.error = none)
      ∧ (s.result ≠ none → s.status = Status.completed)
      ∧ (s.error ≠ none → s.status = Status.failed) := by
  intro s hs
  cases hres : resolveContentLength env with
  | error e =>
    simp only [runUploadStates, hres, List.mem_cons, List.not_mem_nil, or_false] at hs
    rcases hs with rfl | rfl | rfl | rfl | rfl <;>
      refine ⟨?_, ?_, ?_, ?_⟩ <;> simp [hr, he]
  | ok n =>
    cases hloop : (streamVideoToYouTube env.attempts).result with
    | ok r =>
      simp only [runUploadStates, hres, hloop, List.mem_cons, List.not_mem_nil, or_false] at hs
      rcases hs with rfl | rfl | rfl | rfl | rfl | rfl <;>
        refine ⟨?_, ?_, ?_, ?_⟩ <;> simp [hr, he]
    | error e =>
      simp only [runUploadStates, hres, hloop, List.mem_cons, List.not_mem_nil, or_false] at hs
      rcases hs with rfl | rfl | rfl | rfl | rfl | rfl <;>
        refine ⟨?_, ?_, ?_, ?_⟩ <;> simp [hr, he]

/-- C4: when the request carries no explicit `contentLength` and the HEAD
probe reports no `Content-Length` header, the job terminates `failed`
with the size-unavailable error, zero transfer attempts are performed,
and the run is independent of the transfer attempts' outcomes (the
streaming relay is never invoked; the retry loop wraps only the transfer
stage, so the resolution step is never retried). -/
theorem size_unavailable_no_attempt (j : Job) (env : RunEnv)
    (hcl : env.contentLength = none) (hhead : env.head = HeadOutcome.response none) :
    (runUploadStates j env).getLast? =
      some { j with
              status := Status.failed,
              completedAt := some env.finishTime,
              error := some { message := sizeUnavailableMessage, code := none } }
    ∧ runUploadAttempts env = 0
    ∧ ∀ att1 att2,
        runUploadStates j { env with attempts := att1 }
          = runUploadStates j { env with attempts := att2 } := by
  have hres : resolveContentLength env
      = Except.error { message := sizeUnavailableMessage, statusCode := none, code := none } := by
    simp [resolveContentLength, hcl, hhead, getContentLength]
  refine ⟨?_, ?_, ?_⟩
  · simp [runUploadStates, hres, toJobError]
  · simp [runUploadAttempts, hres]
  · intro att1 att2
    have h1 : resolveContentLength { env with attempts := att1 }
        = Except.error { message := sizeUnavailableMessage, statusCode := none, code := none } := by
      simp [resolveContentLength, hcl, hhead, getContentLength]
    have h2 : resolveContentLength { env with attempts := att2 }
        = Except.error { message := sizeUnavailableMessage, statusCode := none, code := none } := by
      simp [resolveContentLength, hcl, hhead, getContentLength]
    simp [runUploadStates, h1, h2]

/-- C6: whenever the store holds more than 100 jobs, the sweep retains
exactly 100 jobs and deletes the other `size - 100`, every evicted job's
creation time is at most every retained job's creation time (eviction
removes oldest first and never removes a job strictly newer than a
retained one), and deleted plus retained jobs are exactly the original
store. -/
theorem eviction_oldest_first (store : List Job) (h : 100 < store.length) :
    (evictionSweep store).2.length = 100
    ∧ (evictionSweep store).1.length = store.length - 100
    ∧ (∀ d ∈ (evictionSweep store).1, ∀ k ∈ (evictionSweep store).2,
        d.createdAt ≤ k.createdAt)
    ∧ ((evictionSweep store).1 ++ (evictionSweep store).2).Perm store := by
  have hperm : (List.insertionSort jobLE store).Perm store :=
    List.perm_insertionSort jobLE store
  have hlen : (List.insertionSort jobLE store).length = store.length :=
    hperm.length_eq
  have hsorted : List.Sorted jobLE (List.insertionSort jobLE store) :=
    List.sorted_insertionSort jobLE store
  simp only [evictionSweep, if_pos h]
  refine ⟨?_, ?_, ?_, ?_⟩
  · rw [List.length_drop, hlen]
    omega
  · rw [List.length_take, hlen]
    omega
  · intro x hx y hy
    rw [← List.take_append_drop (store.length - 100) (List.insertionSort jobLE store)]
      at hsorted
    exact (List.pairwise_append.mp hsorted).2.2 x hx y hy
  · rw [List.take_append_drop]
    exact hperm

/-- C8 counterexample: two distinct job creations that draw the same
millisecond clock value and the same random suffix produce equal ids, so
the generated ids of distinct jobs are not always distinct. -/
theorem jobId_collision :
    (createdJobs histColl).length = 2
    ∧ ¬((createdJobs histColl).map Job.id).Nodup := by
  exact ⟨by decide, by decide⟩

/-- C8 (amended): two generated job ids are distinct whenever the
generation inputs (millisecond timestamp, random suffix) differ in either
component — equal ids force equal inputs — and a job's id is never
mutated by the job's lifecycle after creation. -/
theorem jobId_unique_of_distinct_inputs :
    (∀ (t1 t2 : Nat) (r1 r2 : String), (t1, r1) ≠ (t2, r2) →
        genJobId t1 r1 ≠ genJobId t2 r2)
    ∧ (∀ (j : Job) (env : RunEnv), ∀ s ∈ runUploadStates j env, s.id = j.id) := by
  constructor
  · intro t1 t2 r1 r2 hne heq
    obtain ⟨ht, hrs⟩ := genJobId_inj heq
    exact hne (by rw [ht, hrs])
  · intro j env s hs
    cases hres : resolveContentLength env with
    | error e =>
      simp only [runUploadStates, hres, List.mem_cons, List.not_mem_nil, or_false] at hs
      rcases hs with rfl | rfl | rfl | rfl | rfl <;> simp
    | ok n =>
      cases hloop : (streamVideoToYouTube env.attempts).result with
      | ok r =>
        simp only [runUploadStates, hres, hloop, List.mem_cons, List.not_mem_nil,
          or_false] at hs
        rcases hs with rfl | rfl | rfl | rfl | rfl | rfl <;> simp
      | error e =>
        simp only [runUploadStates, hres, hloop, List.mem_cons, List.not_mem_nil,
          or_false] at hs
        rcases hs with rfl | rfl | rfl | rfl | rfl | rfl <;> simp

/-! ### Witnesses -/

/-- Witness for C1 at a concrete environment whose every attempt fails
with a non-retryable 403 rejection. -/
theorem retry_policy_spec_witness :
    envRejectRun.attempts 1 = Except.error rejectedErr
    ∧ isRetryable rejectedErr = false
    ∧ streamVideoToYouTube envRejectRun.attempts =
        { result := Except.error rejectedErr, attemptsMade := 1, delays := [] }
    ∧ resolveContentLength envRejectRun = Except.ok 1000
    ∧ (runUploadStates jobEx envRejectRun).getLast? =
        some { jobEx with
                status := Status.failed,
                completedAt := some envRejectRun.finishTime,
                error := some (toJobError rejectedErr) } := by
  refine ⟨rfl, rfl, (retry_policy_spec envRejectRun).2.2.1 rejectedErr rfl rfl, rfl, ?_⟩
  exact ((retry_policy_spec envRejectRun).2.2.2 rejectedErr rfl).2 jobEx 1000 rfl

/-- Witness for C2 at a concrete pending job and environment. -/
theorem status_chain_witness :
    jobEx.status = Status.pending
    ∧ (observedStatuses (runUploadStates jobEx envOkRun)).head? = some Status.pending :=
  ⟨rfl, (status_chain jobEx envOkRun rfl).2.2.1⟩

/-- Witness for C3 at a concrete job and environment. -/
theorem result_error_invariant_witness :
    jobEx.result = none ∧ jobEx.error = none
    ∧ (jobEx.result = none ∨ jobEx.error = none) :=
  ⟨rfl, rfl, (result_error_invariant jobEx envRejectRun rfl rfl jobEx (by decide)).1⟩

/-- Witness for C4 at a concrete environment with no explicit length and
a header-less HEAD response. -/
theorem size_unavailable_witness :
    envNoLen.contentLength = none
    ∧ envNoLen.head = HeadOutcome.response none
    ∧ (runUploadStates jobEx envNoLen).getLast? =
        some { jobEx with
                status := Status.failed,
                completedAt := some envNoLen.finishTime,
                error := some { message := sizeUnavailableMessage, code := none } }
    ∧ runUploadAttempts envNoLen = 0 := by
  refine ⟨rfl, rfl, ?_, ?_⟩
  · exact (size_unavailable_no_attempt jobEx envNoLen rfl rfl).1
  · exact (size_unavailable_no_attempt jobEx envNoLen rfl rfl).2.1

/-- Witness for C5 at a concrete unparseable 201 response body. -/
theorem success_201_parses_witness :
    (200 : Nat) < 400
    ∧ unparsedBody.parsed = none
    ∧ ∃ r, attemptStreamUpload (SourceEvent.response 200) (PutEvent.response 201 unparsedBody)
          = Except.ok r
        ∧ r.videoId = none := by
  refine ⟨by norm_num, rfl, ?_⟩
  exact (success_201_parses 200 unparsedBody (by norm_num)).2 rfl

/-- Witness for C6 at a concrete 101-job store. -/
theorem eviction_oldest_first_witness :
    100 < storeEx.length ∧ (evictionSweep storeEx).2.length = 100 :=
  ⟨by decide, (eviction_oldest_first storeEx (by decide)).1⟩

/-- Witness for the amended C8 at concrete distinct inputs and a concrete
job snapshot. -/
theorem jobId_unique_witness :
    ((tsA, sufA) : Nat × String) ≠ ((tsB, sufA) : Nat × String)
    ∧ genJobId tsA sufA ≠ genJobId tsB sufA
    ∧ jobEx ∈ runUploadStates jobEx envOkRun
    ∧ jobEx.id = jobEx.id := by
  refine ⟨by decide, ?_, by decide, ?_⟩
  · exact (jobId_unique_of_distinct_inputs).1 tsA tsB sufA sufA (by decide)
  · exact (jobId_unique_of_distinct_inputs).2 jobEx envOkRun jobEx (by decide)

/-- Witness for C9 at the concrete success-range status 200. -/
theorem success_requires_201_witness :
    (200 : Nat) < 400 ∧ (200 : Nat) ≠ 201
    ∧ ∃ e, attemptStreamUpload (SourceEvent.response 200) (PutEvent.response 200 parsedBody)
          = Except.error e
        ∧ e.statusCode = some 200
        ∧ isRetryable e = false
        ∧ ∀ env, env 1 = Except.error e →
            streamVideoToYouTube env =
              { result := Except.error e, attemptsMade := 1, delays := [] } := by
  refine ⟨by norm_num, by norm_num, ?_⟩
  exact success_requires_201 200 200 parsedBody (by norm_num) (by norm_num) (by norm_num)
    (by norm_num)

/-- Witness for C10 at the concrete source status 503 (a 5xx). -/
theorem download_error_never_retried_witness :
    (400 : Nat) ≤ 503
    ∧ ∃ e, attemptStreamUpload (SourceEvent.response 503) (PutEvent.response 201 parsedBody)
          = Except.error e
        ∧ e.statusCode = none
        ∧ e.code = none
        ∧ isRetryable e = false
        ∧ ∀ env, env 1 = Except.error e →
            streamVideoToYouTube env =
              { result := Except.error e, attemptsMade := 1, delays := [] } :=
  ⟨by norm_num,
   download_error_never_retried 503 (PutEvent.response 201 parsedBody) (by norm_num)⟩

end YTUpload
